import Mathlib

/-!
Verification of the passwall-server encryption subsystem against its
specification.

The repository files available are: the app-level email flows
(CreateEmail, UpdateEmail), the configuration package (config.go), and
the login HTTP handlers (FindAllLogins, FindLoginsByID, CreateLogin,
UpdateLogin, BulkUpdateLogins, DeleteLogin).  The cryptographic engine
itself (EncryptModel, DecryptModel, the record cipher) and the model
package (model.Email, model.Login, the DTO conversions) are not among
them, so those collaborators are modelled from the specification, each
marked with a doc comment starting with "Modelled from the spec".

Bytes and transport strings are modelled as lists of naturals; records
are structures whose sensitive fields hold such lists.
-/

namespace Passwall

/-! ### Record Cipher -/

/-- Modelled from the spec: the self-contained ciphertext produced by the
record cipher, nonce plus authentication tag plus ciphertext.  The concrete
AEAD algorithm is left open by the spec, so the cipher is modelled as a
reversible byte map plus a tag binding key, nonce and ciphertext; what
matters for the claims is that it round-trips under the right key and
fails closed otherwise. -/
structure EncryptedBlob where
  nonce : Nat
  tag : Nat
  ciphertext : List Nat
  deriving DecidableEq, Repr

/-- Modelled from the spec: authenticated encryption of a plaintext byte
string under a key with an explicit nonce (the Go code draws the nonce
from a secure random source; here it is a parameter). -/
def encryptBlob (key nonce : Nat) (p : List Nat) : EncryptedBlob :=
  let c := p.map (fun b => b + key)
  { nonce := nonce, tag := key + nonce + c.sum, ciphertext := c }

/-- Modelled from the spec: authenticated decryption; verifies the tag
against the supplied key and fails closed on mismatch. -/
def decryptBlob (key : Nat) (b : EncryptedBlob) : Option (List Nat) :=
  if b.tag = key + b.nonce + b.ciphertext.sum then
    some (b.ciphertext.map (fun x => x - key))
  else
    none

/-- Modelled from the spec: serialisation of a blob to the transport-safe
string stored in the record field (base64 in the Go code; an injective
encoding to a byte list here). -/
def blobEncode (b : EncryptedBlob) : List Nat :=
  b.nonce :: b.tag :: b.ciphertext

/-- Modelled from the spec: splitting a stored string back into
nonce, tag and ciphertext; a string too short to split is malformed. -/
def blobDecode (s : List Nat) : Option EncryptedBlob :=
  match s with
  | n :: t :: c => some { nonce := n, tag := t, ciphertext := c }
  | _ => none

/-- Modelled from the spec: encryptField of the record cipher — encrypt a
plaintext field value and encode the blob for storage. -/
def encryptField (key nonce : Nat) (p : List Nat) : List Nat :=
  blobEncode (encryptBlob key nonce p)

/-- Modelled from the spec: decryptField of the record cipher — decode the
stored string and decrypt, with the error taxonomy of the spec
(MalformedBlobError for an unsplittable string, TamperedOrWrongKeyError
for an authentication failure).  The error carries the detail string the
Go err.Error() would carry. -/
def decryptField (key : Nat) (s : List Nat) : Except String (List Nat) :=
  match blobDecode s with
  | none => Except.error "malformed blob"
  | some b =>
    match decryptBlob key b with
    | none => Except.error "cipher authentication failed"
    | some p => Except.ok p

/-- A stored field value is ciphertext under a key when it is the exact
output of encryptField for some nonce and plaintext. -/
def isCiphertext (key : Nat) (v : List Nat) : Prop :=
  ∃ nonce p, v = encryptField key nonce p

/-! ### Email record, DTO and the Model Encryption Engine -/

/-- Modelled from the spec: model.Email — an id (non-sensitive) and the
three string fields the update flow copies from the encrypted model. -/
structure Email where
  id : Nat
  title : List Nat
  email : List Nat
  password : List Nat
  deriving DecidableEq, Repr

/-- Modelled from the spec: model.EmailDTO, the incoming plaintext shape. -/
structure EmailDTO where
  id : Nat
  title : List Nat
  email : List Nat
  password : List Nat
  deriving DecidableEq, Repr

/-- Modelled from the spec: model.ToEmail, the DTO-to-record conversion. -/
def ToEmail (dto : EmailDTO) : Email :=
  { id := dto.id, title := dto.title, email := dto.email, password := dto.password }

/-- Modelled from the spec: the Model Encryption Engine on the Email
variant — every sensitive field (title, email, password: exactly the
fields UpdateEmail copies from the encrypted model) is replaced by its
encryptField image, non-sensitive fields pass through, and a new record
is returned.  Each field gets its own fresh nonce. -/
def EncryptModel (key nonce : Nat) (m : Email) : Email :=
  { m with
    title := encryptField key nonce m.title
    email := encryptField key (nonce + 1) m.email
    password := encryptField key (nonce + 2) m.password }

/-- Modelled from the spec: the engine inverse on the Email variant; if
any field fails to decrypt the whole operation fails with that field's
error (a record is never returned half-decrypted). -/
def DecryptModelEmail (key : Nat) (m : Email) : Except String Email :=
  match decryptField key m.title with
  | Except.error e => Except.error e
  | Except.ok t =>
    match decryptField key m.email with
    | Except.error e => Except.error e
    | Except.ok em =>
      match decryptField key m.password with
      | Except.error e => Except.error e
      | Except.ok p => Except.ok { m with title := t, email := em, password := p }

/-! ### Persistence collaborator for emails (storage.Store, Emails()) -/

/-- Modelled from the spec: the persistence collaborator's Create — stores
the record it is handed, as handed, and returns it; it never
encrypts or decrypts.  The database is explicit state. -/
def EmailsCreate (db : List Email) (e : Email) : List Email × Email :=
  (db ++ [e], e)

/-- Modelled from the spec: the persistence collaborator's Update — stores
the record it is handed over the record with the same id and returns it. -/
def EmailsUpdate (db : List Email) (e : Email) : List Email × Email :=
  (db.map (fun x => if x.id = e.id then e else x), e)

/-- CreateEmail from the app package: convert the DTO, encrypt the model,
hand the encrypted model to persistence.  Returns the new database state
and the created record. -/
def CreateEmail (key nonce : Nat) (db : List Email) (dto : EmailDTO) :
    List Email × Email :=
  let rawModel := ToEmail dto
  let encModel := EncryptModel key nonce rawModel
  EmailsCreate db encModel

/-- UpdateEmail from the app package: convert and encrypt the full DTO,
assign its Title, Email and Password onto the caller-supplied record (the
Go code writes through the pointer, so the middle component is the
post-call state of the caller's record), then hand that record to
persistence.  Returns (new database, post-call state of the caller's
record, record returned by persistence). -/
def UpdateEmail (key nonce : Nat) (db : List Email) (email : Email)
    (dto : EmailDTO) : List Email × Email × Email :=
  let rawModel := ToEmail dto
  let encModel := EncryptModel key nonce rawModel
  let written :=
    { email with
      title := encModel.title
      email := encModel.email
      password := encModel.password }
  let stored := EmailsUpdate db written
  (stored.1, written, stored.2)

/-! ### Login record, DTO and the engine on the Login variant -/

/-- Modelled from the spec: model.Login. -/
structure Login where
  id : Nat
  url : List Nat
  username : List Nat
  password : List Nat
  deriving DecidableEq, Repr

/-- Modelled from the spec: model.LoginDTO. -/
structure LoginDTO where
  id : Nat
  url : List Nat
  username : List Nat
  password : List Nat
  deriving DecidableEq, Repr

/-- Modelled from the spec: model.ToLogin. -/
def ToLogin (dto : LoginDTO) : Login :=
  { id := dto.id, url := dto.url, username := dto.username, password := dto.password }

/-- model.ToLoginDTO as used by the handlers: record to DTO. -/
def ToLoginDTO (l : Login) : LoginDTO :=
  { id := l.id, url := l.url, username := l.username, password := l.password }

/-- Modelled from the spec: the Model Encryption Engine on the Login
variant; the sensitive fields fixed for this variant are username and
password. -/
def EncryptModelLogin (key nonce : Nat) (m : Login) : Login :=
  { m with
    username := encryptField key nonce m.username
    password := encryptField key (nonce + 1) m.password }

/-- Modelled from the spec: app.DecryptModel on the Login variant; fails
as a whole on the first field that fails to decrypt, carrying that
field's error detail. -/
def DecryptModel (key : Nat) (m : Login) : Except String Login :=
  match decryptField key m.username with
  | Except.error e => Except.error e
  | Except.ok u =>
    match decryptField key m.password with
    | Except.error e => Except.error e
    | Except.ok p => Except.ok { m with username := u, password := p }

/-- Modelled from the spec: the login store's FindByID. -/
def FindByID (db : List Login) (id : Nat) : Option Login :=
  db.find? (fun l => l.id = id)

/-- Modelled from the spec: app.UpdateLogin, mirroring UpdateEmail —
convert and encrypt the full DTO, write the encrypted sensitive fields
onto the fetched record, store it over the record with the same id. -/
def UpdateLoginRecord (key nonce : Nat) (login : Login) (dto : LoginDTO) : Login :=
  let enc := EncryptModelLogin key nonce (ToLogin dto)
  { login with username := enc.username, password := enc.password }

/-! ### Payload Envelope Codec and handler control flow -/

/-- Modelled from the spec and the handler comments: ToBody — if the
configured environment is dev the body passes through unchanged; in any
other environment (prod) the body is envelope-decrypted with the
session's transmission key before anything parses it. -/
def ToBody (env : String) (tkey : Nat) (body : List Nat) : Except String (List Nat) :=
  if env = "dev" then Except.ok body
  else decryptField tkey body

/-- The observable steps a handler takes, in order: envelope
decryption (ToBody), JSON decoding of the body, a call into the
persistence collaborator, an error response, a success response. -/
inductive Event where
  | envelopeOpen
  | jsonParse
  | persistCall
  | respondError
  | respondOK
  deriving DecidableEq, Repr

/-- The CreateLogin handler: ToBody, then JSON-decode the decrypted body
(the JSON codec is an external collaborator, passed as a function), then
app.CreateLogin (encrypt then persist), then decrypt the created record
for the response.  Returns the event trace and the new database state. -/
def CreateLogin (env : String) (tkey key nonce : Nat)
    (decode : List Nat → Except String LoginDTO)
    (db : List Login) (body : List Nat) : List Event × List Login :=
  match ToBody env tkey body with
  | Except.error _ => ([Event.envelopeOpen, Event.respondError], db)
  | Except.ok plain =>
    match decode plain with
    | Except.error _ => ([Event.envelopeOpen, Event.jsonParse, Event.respondError], db)
    | Except.ok dto =>
      let created := EncryptModelLogin key nonce (ToLogin dto)
      let db2 := db ++ [created]
      match DecryptModel key created with
      | Except.error _ =>
        ([Event.envelopeOpen, Event.jsonParse, Event.persistCall, Event.respondError], db2)
      | Except.ok _ =>
        ([Event.envelopeOpen, Event.jsonParse, Event.persistCall, Event.respondOK], db2)

/-- The UpdateLogin handler: the id path variable is parsed first (an
unparsable id is rejected before anything else), then ToBody, then JSON
decoding, then FindByID, then app.UpdateLogin, then response decryption. -/
def UpdateLogin (env : String) (tkey key nonce : Nat) (idvar : Option Nat)
    (decode : List Nat → Except String LoginDTO)
    (db : List Login) (body : List Nat) : List Event × List Login :=
  match idvar with
  | none => ([Event.respondError], db)
  | some id =>
    match ToBody env tkey body with
    | Except.error _ => ([Event.envelopeOpen, Event.respondError], db)
    | Except.ok plain =>
      match decode plain with
      | Except.error _ => ([Event.envelopeOpen, Event.jsonParse, Event.respondError], db)
      | Except.ok dto =>
        match FindByID db id with
        | none => ([Event.envelopeOpen, Event.jsonParse, Event.respondError], db)
        | some login =>
          let upd := UpdateLoginRecord key nonce login dto
          let db2 := db.map (fun x => if x.id = login.id then upd else x)
          match DecryptModel key upd with
          | Except.error _ =>
            ([Event.envelopeOpen, Event.jsonParse, Event.persistCall, Event.respondError], db2)
          | Except.ok _ =>
            ([Event.envelopeOpen, Event.jsonParse, Event.persistCall, Event.respondOK], db2)

/-- The per-item loop of BulkUpdateLogins: for each DTO, FindByID (a miss
responds with an error and stops) then app.UpdateLogin (a persistence
step).  Returns (events of the loop, final database, whether the loop ran
to completion). -/
def updateLoop (key nonce : Nat) (db : List Login) :
    List LoginDTO → List Event × List Login × Bool
  | [] => ([], db, true)
  | dto :: rest =>
    match FindByID db dto.id with
    | none => ([Event.respondError], db, false)
    | some login =>
      let upd := UpdateLoginRecord key nonce login dto
      let db2 := db.map (fun x => if x.id = login.id then upd else x)
      let next := updateLoop key nonce db2 rest
      (Event.persistCall :: next.1, next.2)

/-- The BulkUpdateLogins handler.  On a JSON decoding failure the Go code
writes an error response but does not return; the login list it then
loops over is the zero value (the empty list), and after the loop
completes a success response is written for the same request. -/
def BulkUpdateLogins (env : String) (tkey key nonce : Nat)
    (decode : List Nat → Except String (List LoginDTO))
    (db : List Login) (body : List Nat) : List Event × List Login :=
  match ToBody env tkey body with
  | Except.error _ => ([Event.envelopeOpen, Event.respondError], db)
  | Except.ok plain =>
    let pre :=
      match decode plain with
      | Except.error _ =>
        (([Event.envelopeOpen, Event.jsonParse, Event.respondError] : List Event),
         ([] : List LoginDTO))
      | Except.ok l => ([Event.envelopeOpen, Event.jsonParse], l)
    match updateLoop key nonce db pre.2 with
    | (evs, dbf, true) => (pre.1 ++ evs ++ [Event.respondOK], dbf)
    | (evs, dbf, false) => (pre.1 ++ evs, dbf)

/-- A handler response: either an error with HTTP status and message, or
a success payload. -/
inductive HandlerOut (α : Type) where
  | errorResp (status : Nat) (msg : String)
  | okResp (payload : α)
  deriving DecidableEq, Repr

/-- Decrypt every login of a list, failing as a whole on the first login
whose decryption fails, as the loop in FindAllLogins does. -/
def decryptAll (key : Nat) : List Login → Except String (List Login)
  | [] => Except.ok []
  | l :: rest =>
    match DecryptModel key l with
    | Except.error e => Except.error e
    | Except.ok u =>
      match decryptAll key rest with
      | Except.error e => Except.error e
      | Except.ok us => Except.ok (u :: us)

/-- The FindAllLogins handler: fetch all logins, decrypt the sensitive
fields of each; on any decryption failure respond with status 500 and the
error's own message, otherwise respond with the decrypted list. -/
def FindAllLogins (key : Nat) (db : List Login) : HandlerOut (List Login) :=
  match decryptAll key db with
  | Except.error e => HandlerOut.errorResp 500 e
  | Except.ok list => HandlerOut.okResp list

/-- The FindLoginsByID handler: parse the id (400 on failure), FindByID
(404 on a miss), decrypt the record (500 with the error's own message on
failure), convert to a DTO and respond. -/
def FindLoginsByID (key : Nat) (db : List Login) (idvar : Option Nat) :
    HandlerOut LoginDTO :=
  match idvar with
  | none => HandlerOut.errorResp 400 "invalid id"
  | some id =>
    match FindByID db id with
    | none => HandlerOut.errorResp 404 "record not found"
    | some login =>
      match DecryptModel key login with
      | Except.error e => HandlerOut.errorResp 500 e
      | Except.ok u => HandlerOut.okResp (ToLoginDTO u)

/-! ### Configuration (config.go) -/

/-- A viper-backed configuration key as the handlers read it: an explicit
environment variable wins, then the configuration file, then the value
set by setDefaults.  Struct tags like default:"dev" on
ServerConfiguration are inert — viper.Unmarshal does not read them. -/
structure ConfigSource where
  envVar : Option String
  fileVal : Option String
  deriving DecidableEq, Repr

/-- server.env as read at request time: setDefaults sets the default to
"prod" (config.go line 153). -/
def getServerEnv (s : ConfigSource) : String :=
  match s.envVar with
  | some v => v
  | none =>
    match s.fileVal with
    | some v => v
    | none => "prod"

/-- The standard base64 alphabet of encoding/base64. -/
def base64Alphabet : List Char :=
  "ABCDEFGHIJKLMNOPQRSTUVWXYZabcdefghijklmnopqrstuvwxyz0123456789+/".toList

/-- The alphabet character for a 6-bit value. -/
def b64Char (n : Nat) : Char :=
  base64Alphabet.getD n "A".front

/-- Standard base64 encoding with padding of a byte list, three bytes to
four characters, as base64.StdEncoding.EncodeToString does. -/
def b64EncodeChars : List Nat → List Char
  | [] => []
  | [b0] => [b64Char (b0 / 4), b64Char (b0 % 4 * 16), "=".front, "=".front]
  | [b0, b1] =>
    [b64Char (b0 / 4), b64Char (b0 % 4 * 16 + b1 / 16), b64Char (b1 % 16 * 4), "=".front]
  | b0 :: b1 :: b2 :: rest =>
    b64Char (b0 / 4) :: b64Char (b0 % 4 * 16 + b1 / 16) ::
      b64Char (b1 % 16 * 4 + b2 / 64) :: b64Char (b2 % 64) :: b64EncodeChars rest

/-- base64.StdEncoding.EncodeToString over a byte list. -/
def b64EncodeStd (bs : List Nat) : String :=
  String.mk (b64EncodeChars bs)

/-- generateKey from config.go: crypto/rand fills a 32-byte buffer
(modelled as the entropy argument, none when rand.Read errors); on a
random-source failure return the fixed fallback string, otherwise the
base64 encoding of the 32 bytes. -/
def generateKey (entropy : Option (List Nat)) : String :=
  match entropy with
  | none => "add-your-key-to-here"
  | some key => b64EncodeStd key

/-- server.passphrase as configuration initialisation resolves it: an
explicit environment variable wins, then the configuration file, then
the setDefaults value generateKey() (config.go line 156). -/
def getServerPassphrase (s : ConfigSource) (entropy : Option (List Nat)) : String :=
  match s.envVar with
  | some v => v
  | none =>
    match s.fileVal with
    | some v => v
    | none => generateKey entropy

/-! ### Helper lemmas -/

/-- The record cipher round-trips on a single field. -/
theorem decryptField_encryptField (key nonce : Nat) (p : List Nat) :
    decryptField key (encryptField key nonce p) = Except.ok p := by
  have hmap : List.map (fun x => x - key) (List.map (fun b => b + key) p) = p := by
    rw [List.map_map]
    rw [show ((fun x => x - key) ∘ fun b => b + key) = id from funext fun b =>
      Nat.add_sub_cancel b key]
    exact List.map_id p
  simp [decryptField, encryptField, blobEncode, blobDecode, decryptBlob, encryptBlob, hmap]

/-- An encrypted field value is two entries longer than its plaintext, so
it is never the plaintext itself. -/
theorem encryptField_ne (key nonce : Nat) (p : List Nat) :
    encryptField key nonce p ≠ p := by
  intro h
  have hlen := congrArg List.length h
  simp [encryptField, blobEncode, encryptBlob] at hlen
  omega

/-! ### Claims -/

/-- C1: in both the create and the update flow, every sensitive field of
the record handed to the persistence collaborator (the second component
of EmailsCreate and EmailsUpdate's argument/result) is ciphertext
produced by the Model Encryption Engine, and never the plaintext carried
by the DTO. -/
theorem create_update_persist_only_ciphertext (key nonce : Nat) (db : List Email)
    (email : Email) (dto : EmailDTO) :
    (isCiphertext key (CreateEmail key nonce db dto).2.title ∧
      isCiphertext key (CreateEmail key nonce db dto).2.email ∧
      isCiphertext key (CreateEmail key nonce db dto).2.password ∧
      (CreateEmail key nonce db dto).2.title ≠ dto.title ∧
      (CreateEmail key nonce db dto).2.email ≠ dto.email ∧
      (CreateEmail key nonce db dto).2.password ≠ dto.password) ∧
    (isCiphertext key (UpdateEmail key nonce db email dto).2.2.title ∧
      isCiphertext key (UpdateEmail key nonce db email dto).2.2.email ∧
      isCiphertext key (UpdateEmail key nonce db email dto).2.2.password ∧
      (UpdateEmail key nonce db email dto).2.2.title ≠ dto.title ∧
      (UpdateEmail key nonce db email dto).2.2.email ≠ dto.email ∧
      (UpdateEmail key nonce db email dto).2.2.password ≠ dto.password) := by
  exact ⟨⟨⟨nonce, dto.title, rfl⟩, ⟨nonce + 1, dto.email, rfl⟩,
      ⟨nonce + 2, dto.password, rfl⟩,
      encryptField_ne key nonce dto.title, encryptField_ne key (nonce + 1) dto.email,
      encryptField_ne key (nonce + 2) dto.password⟩,
    ⟨⟨nonce, dto.title, rfl⟩, ⟨nonce + 1, dto.email, rfl⟩,
      ⟨nonce + 2, dto.password, rfl⟩,
      encryptField_ne key nonce dto.title, encryptField_ne key (nonce + 1) dto.email,
      encryptField_ne key (nonce + 2) dto.password⟩⟩

/-- C2 counterexample: the stored password [5, 12, 7] is a genuine
ciphertext (encryptField 0 5 [7]), the incoming DTO does not carry a
password (the empty value a JSON body without that key decodes to), yet
UpdateEmail hands persistence a record whose password blob is no longer
the stored one — it was re-derived from the empty DTO value. -/
theorem update_partial_preservation_cex :
    [5, 12, 7] = encryptField 0 5 [7] ∧
    (UpdateEmail 0 9 [{ id := 1, title := [2], email := [3], password := [5, 12, 7] }]
          { id := 1, title := [2], email := [3], password := [5, 12, 7] }
          { id := 1, title := [2], email := [3], password := [] }).2.2.password ≠
      [5, 12, 7] := by
  decide

/-- C2 amended: UpdateEmail re-encrypts and replaces all three
engine-managed fields (title, email, password) from the DTO on every
update, whether or not the DTO supplies a value for them; only fields
outside the engine's sensitive set, such as the id, keep their stored
value. -/
theorem update_reencrypts_all_engine_fields (key nonce : Nat) (db : List Email)
    (email : Email) (dto : EmailDTO) :
    (UpdateEmail key nonce db email dto).2.2.title = encryptField key nonce dto.title ∧
    (UpdateEmail key nonce db email dto).2.2.email =
      encryptField key (nonce + 1) dto.email ∧
    (UpdateEmail key nonce db email dto).2.2.password =
      encryptField key (nonce + 2) dto.password ∧
    (UpdateEmail key nonce db email dto).2.2.id = email.id := by
  exact ⟨rfl, rfl, rfl, rfl⟩

/-- C3 counterexample: the update flow does mutate the caller-supplied
record in place — after UpdateEmail on a concrete record, the caller's
record (the middle component, the post-call state of the pointed-to
record) differs from its value before the call. -/
theorem encrypt_no_inplace_mutation_cex :
    (UpdateEmail 0 0 [] { id := 1, title := [2], email := [3], password := [4] }
          { id := 1, title := [2], email := [3], password := [4] }).2.1 ≠
      { id := 1, title := [2], email := [3], password := [4] } := by
  decide

/-- C3 amended: the Model Encryption Engine itself is a pure function
from record to new record (EncryptModel of the freshly converted DTO),
but the update flow writes the encrypted field values onto the
caller-supplied existing record in place: after UpdateEmail the caller's
record carries the encrypted DTO values in title, email and password,
with only its remaining fields (the id) untouched. -/
theorem update_mutates_caller_record (key nonce : Nat) (db : List Email)
    (email : Email) (dto : EmailDTO) :
    (UpdateEmail key nonce db email dto).2.1 =
      { email with
        title := (EncryptModel key nonce (ToEmail dto)).title
        email := (EncryptModel key nonce (ToEmail dto)).email
        password := (EncryptModel key nonce (ToEmail dto)).password } := by
  rfl

/-- C4: the record cipher round-trips on every plaintext under a fixed
key, and the Model Encryption Engine round-trips on every record: the
engine inverse recovers the record exactly, and the non-sensitive id
field is byte-identical both after encryption and after the round trip. -/
theorem field_and_record_roundtrip (key nonce : Nat) (p : List Nat) (m : Email) :
    decryptField key (encryptField key nonce p) = Except.ok p ∧
    DecryptModelEmail key (EncryptModel key nonce m) = Except.ok m ∧
    (EncryptModel key nonce m).id = m.id := by
  refine ⟨decryptField_encryptField key nonce p, ?_, rfl⟩
  cases m with
  | mk id title email password =>
    simp [DecryptModelEmail, EncryptModel, decryptField_encryptField]

/-- C5: in every handler taking an encrypted payload the envelope is
opened first (the trace begins with the envelope step), JSON decoding
happens only on bodies whose envelope decryption succeeded, and when
envelope decryption fails the handler responds with an error and stops —
no JSON decoding, no persistence call, the database unchanged. -/
theorem envelope_decrypt_before_parse (env : String) (tkey key nonce : Nat)
    (dec : List Nat → Except String LoginDTO)
    (decL : List Nat → Except String (List LoginDTO))
    (db : List Login) (body : List Nat) (id : Nat) :
    (∀ e, ToBody env tkey body = Except.error e →
      CreateLogin env tkey key nonce dec db body =
        ([Event.envelopeOpen, Event.respondError], db) ∧
      UpdateLogin env tkey key nonce (some id) dec db body =
        ([Event.envelopeOpen, Event.respondError], db) ∧
      BulkUpdateLogins env tkey key nonce decL db body =
        ([Event.envelopeOpen, Event.respondError], db)) ∧
    (Event.jsonParse ∈ (CreateLogin env tkey key nonce dec db body).1 →
      ∃ plain, ToBody env tkey body = Except.ok plain) ∧
    (Event.jsonParse ∈ (UpdateLogin env tkey key nonce (some id) dec db body).1 →
      ∃ plain, ToBody env tkey body = Except.ok plain) ∧
    (Event.jsonParse ∈ (BulkUpdateLogins env tkey key nonce decL db body).1 →
      ∃ plain, ToBody env tkey body = Except.ok plain) ∧
    (CreateLogin env tkey key nonce dec db body).1.head? = some Event.envelopeOpen ∧
    (UpdateLogin env tkey key nonce (some id) dec db body).1.head? =
      some Event.envelopeOpen ∧
    (BulkUpdateLogins env tkey key nonce decL db body).1.head? =
      some Event.envelopeOpen := by
  cases h : ToBody env tkey body with
  | error e0 =>
    refine ⟨?_, ?_, ?_, ?_, ?_, ?_, ?_⟩ <;>
      simp [CreateLogin, UpdateLogin, BulkUpdateLogins, h]
  | ok plain =>
    refine ⟨?_, fun _ => ⟨plain, rfl⟩, fun _ => ⟨plain, rfl⟩, fun _ => ⟨plain, rfl⟩,
      ?_, ?_, ?_⟩
    · intro e he
      exact Except.noConfusion he
    · cases hd : dec plain with
      | error m => simp [CreateLogin, h, hd]
      | ok dto =>
        cases hm : DecryptModel key (EncryptModelLogin key nonce (ToLogin dto)) <;>
          simp [CreateLogin, h, hd, hm]
    · cases hd : dec plain with
      | error m => simp [UpdateLogin, h, hd]
      | ok dto =>
        cases hf : FindByID db id with
        | none => simp [UpdateLogin, h, hd, hf]
        | some login =>
          cases hm : DecryptModel key (UpdateLoginRecord key nonce login dto) <;>
            simp [UpdateLogin, h, hd, hf, hm]
    · cases hd : decL plain with
      | error m => simp [BulkUpdateLogins, h, hd, updateLoop]
      | ok list =>
        rcases hu : updateLoop key nonce db list with ⟨evs, dbf, ok⟩
        cases ok <;> simp [BulkUpdateLogins, h, hd, hu]

/-- C6: a stored record reaches the response only through the Model
Encryption Engine inverse — FindLoginsByID emits the DTO of the decrypted
record and answers a decryption failure with an error response instead,
and FindAllLogins emits only a fully decrypted list and answers any
failure in the list with an error response. -/
theorem decrypt_before_response (key : Nat) (db : List Login) (id : Nat) :
    (∀ l e, FindByID db id = some l → DecryptModel key l = Except.error e →
      FindLoginsByID key db (some id) = HandlerOut.errorResp 500 e) ∧
    (∀ dto, FindLoginsByID key db (some id) = HandlerOut.okResp dto →
      ∃ l u, FindByID db id = some l ∧ DecryptModel key l = Except.ok u ∧
        dto = ToLoginDTO u) ∧
    (∀ e, decryptAll key db = Except.error e →
      FindAllLogins key db = HandlerOut.errorResp 500 e) ∧
    (∀ out, FindAllLogins key db = HandlerOut.okResp out →
      decryptAll key db = Except.ok out) := by
  refine ⟨?_, ?_, ?_, ?_⟩
  · intro l e hf hd
    simp [FindLoginsByID, hf, hd]
  · intro dto hout
    cases hf : FindByID db id with
    | none => simp [FindLoginsByID, hf] at hout
    | some l =>
      cases hd : DecryptModel key l with
      | error e => simp [FindLoginsByID, hf, hd] at hout
      | ok u =>
        simp [FindLoginsByID, hf, hd] at hout
        exact ⟨l, u, rfl, hd, hout.symm⟩
  · intro e hd
    simp [FindAllLogins, hd]
  · intro out hout
    cases hd : decryptAll key db with
    | error e => simp [FindAllLogins, hd] at hout
    | ok us =>
      simp [FindAllLogins, hd] at hout
      rw [hout]

/-- C7 counterexample: for a stored login whose username field is not a
well-formed blob, DecryptModel fails with the detail "malformed blob" and
FindLoginsByID surfaces exactly that underlying detail to the client, in
a 500 server-error response — not a generic client error hiding the
detail. -/
theorem decrypt_error_leak_cex :
    DecryptModel 0 { id := 1, url := [0], username := [9], password := [9] } =
      Except.error "malformed blob" ∧
    FindLoginsByID 0 [{ id := 1, url := [0], username := [9], password := [9] }]
        (some 1) =
      HandlerOut.errorResp 500 "malformed blob" :=
  ⟨rfl, rfl⟩

/-- C7 amended: when decryption of a stored record fails in a read
handler, the failure is surfaced as an HTTP 500 internal-server-error
response whose message is exactly the underlying error's text
(err.Error()); the detail is included, not hidden behind a generic
client error. -/
theorem decrypt_error_detail_in_response (key : Nat) (db : List Login) (id : Nat)
    (l : Login) (e : String) (hf : FindByID db id = some l)
    (hd : DecryptModel key l = Except.error e) :
    FindLoginsByID key db (some id) = HandlerOut.errorResp 500 e ∧
    (∀ e2, decryptAll key db = Except.error e2 →
      FindAllLogins key db = HandlerOut.errorResp 500 e2) := by
  refine ⟨?_, ?_⟩
  · simp [FindLoginsByID, hf, hd]
  · intro e2 hd2
    simp [FindAllLogins, hd2]

/-- C7 amended, witness at a concrete input. -/
theorem decrypt_error_detail_in_response_witness :
    FindByID [{ id := 1, url := [0], username := [9], password := [9] }] 1 =
      some { id := 1, url := [0], username := [9], password := [9] } ∧
    DecryptModel 0 { id := 1, url := [0], username := [9], password := [9] } =
      Except.error "malformed blob" ∧
    FindLoginsByID 0 [{ id := 1, url := [0], username := [9], password := [9] }]
        (some 1) =
      HandlerOut.errorResp 500 "malformed blob" :=
  ⟨rfl, rfl,
    (decrypt_error_detail_in_response 0
        [{ id := 1, url := [0], username := [9], password := [9] }] 1
        { id := 1, url := [0], username := [9], password := [9] } "malformed blob"
        rfl rfl).1⟩

/-- C8: with no explicit setting from the operator — no environment
variable, no configuration-file value — the effective server.env is the
setDefaults value "prod", which is not the dev pass-through mode: under
it the payload codec really decrypts (a sealed envelope opens to its
plaintext, a body that is not an envelope is rejected), while only the
explicit "dev" setting passes bodies through. -/
theorem prod_mode_is_default (tkey nonce : Nat) (body p : List Nat) :
    getServerEnv { envVar := none, fileVal := none } = "prod" ∧
    getServerEnv { envVar := none, fileVal := none } ≠ "dev" ∧
    ToBody (getServerEnv { envVar := none, fileVal := none }) tkey body =
      decryptField tkey body ∧
    ToBody "dev" tkey body = Except.ok body ∧
    ToBody (getServerEnv { envVar := none, fileVal := none }) tkey
      (encryptField tkey nonce p) = Except.ok p ∧
    ToBody (getServerEnv { envVar := none, fileVal := none }) tkey [] =
      Except.error "malformed blob" := by
  refine ⟨rfl, by decide, rfl, rfl, ?_, rfl⟩
  show decryptField tkey (encryptField tkey nonce p) = Except.ok p
  exact decryptField_encryptField tkey nonce p

/-- Base64 encoding yields characters for every non-empty byte list. -/
theorem b64EncodeChars_ne_nil (bs : List Nat) (h : bs ≠ []) :
    b64EncodeChars bs ≠ [] := by
  match bs with
  | [] => exact absurd rfl h
  | [b0] => simp [b64EncodeChars]
  | [b0, b1] => simp [b64EncodeChars]
  | b0 :: b1 :: b2 :: rest => simp [b64EncodeChars]

/-- C9: configuration initialisation never yields an empty passphrase —
with no file or environment value the passphrase default is generateKey,
which returns the base64 encoding of the 32 random bytes, a non-empty
string, and even on a random-source failure falls back to the fixed
non-empty string "add-your-key-to-here". -/
theorem passphrase_default_nonempty (entropy : Option (List Nat)) :
    getServerPassphrase { envVar := none, fileVal := none } entropy =
      generateKey entropy ∧
    generateKey none = "add-your-key-to-here" ∧
    generateKey none ≠ "" ∧
    (∀ k, entropy = some k → generateKey entropy = b64EncodeStd k) ∧
    (∀ k, entropy = some k → k.length = 32 → generateKey entropy ≠ "") := by
  refine ⟨rfl, rfl, by decide, ?_, ?_⟩
  · intro k hk
    rw [hk]
    rfl
  · intro k hk hlen hempty
    rw [hk] at hempty
    have hne : b64EncodeChars k ≠ [] := by
      refine b64EncodeChars_ne_nil k ?_
      intro hnil
      rw [hnil] at hlen
      simp at hlen
    exact hne (congrArg String.data hempty)

/-- C10: in BulkUpdateLogins a JSON decoding failure is answered with an
error response but the handler does not return — it loops over the zero
value of the list (empty), the loop completes, and a second, success
response is written for the same request: the trace carries both a
respondError and a respondOK. -/
theorem bulk_update_double_respond (env : String) (tkey key nonce : Nat)
    (decode : List Nat → Except String (List LoginDTO)) (db : List Login)
    (body plain : List Nat) (m : String)
    (hb : ToBody env tkey body = Except.ok plain)
    (hd : decode plain = Except.error m) :
    BulkUpdateLogins env tkey key nonce decode db body =
      ([Event.envelopeOpen, Event.jsonParse, Event.respondError, Event.respondOK],
        db) ∧
    Event.respondError ∈ (BulkUpdateLogins env tkey key nonce decode db body).1 ∧
    Event.respondOK ∈ (BulkUpdateLogins env tkey key nonce decode db body).1 := by
  have h1 : BulkUpdateLogins env tkey key nonce decode db body =
      ([Event.envelopeOpen, Event.jsonParse, Event.respondError, Event.respondOK],
        db) := by
    simp [BulkUpdateLogins, hb, hd, updateLoop]
  refine ⟨h1, ?_, ?_⟩ <;> rw [h1] <;> simp

/-- C10, witness at a concrete input: a dev-mode request whose body the
JSON collaborator rejects. -/
theorem bulk_update_double_respond_witness :
    ToBody "dev" 0 [1] = Except.ok [1] ∧
    BulkUpdateLogins "dev" 0 0 0
        (fun _ => Except.error "bad") [] [1] =
      ([Event.envelopeOpen, Event.jsonParse, Event.respondError, Event.respondOK],
        []) :=
  ⟨rfl,
    (bulk_update_double_respond "dev" 0 0 0 (fun _ => Except.error "bad") [] [1] [1]
        "bad" rfl rfl).1⟩

end Passwall
